import Mathlib

/-!
Verification of the NTP core of the `clock_cli` repository (src/src/main.rs).

Shallow embedding conventions:
* `chrono::DateTime<Utc>` is modelled by `DateTimeUtc` as whole seconds since
  the Unix epoch (`timestamp()`, an `i64`, modelled as `Int`) together with the
  sub-second nanoseconds (`nanosecond()`, modelled as `Nat`; chrono keeps it
  below 1_000_000_000 except for leap-second representations, which theorems
  exclude by hypothesis where it matters).
* A `chrono::Duration` is modelled by its total signed length in nanoseconds
  (an `Int`).  `Duration::num_milliseconds` truncates toward zero, which on the
  total-nanosecond value is exactly `Int.tdiv · 1000000`.
* Rust `i64`/`isize`/`u32` arithmetic is carried out on `Int`/`Nat`, with the
  wrap of an `as u32` int-to-int cast written explicitly as `% 2^32` and the
  saturation of a float-to-int `as` cast written explicitly with `min`/`max`.
* `f64` is modelled symbolically by `F64`: an exact rational for finite values
  plus the three non-finite points (+inf, -inf, NaN).  The IEEE rules used by
  the program (division by zero, NaN propagation, saturating casts) are
  modelled exactly; rounding of finite values is idealised as exact rational
  arithmetic.  Every claim below that touches `F64` is about finiteness, NaN
  propagation or the algebraic shape of the aggregate, none of which is
  affected by rounding at the magnitudes the program can produce
  (weights are at most 1e6, millisecond counts fit well inside 2^53).
  In the two fixed-point/nanosecond conversions the `f64` computation is in
  fact exact: `n * 2^32` and `f * 1e9` are integers with at most 53 significant
  bits for `n < 1e9`, `f < 2^32`, the final divisions by `1e9` round to within
  2^-22 of the exact quotient while the exact quotient is never closer than
  512/1e9 to a wrong side of an integer, and division by `2^32` is exact; so
  the truncating casts equal the exact integer floors used here.
* Fallible Rust code returns `Except`; the `.unwrap()` calls of the source are
  modelled by a total unwrapping function whose panic branch is unreachable on
  the values the program builds (proved where relevant).
-/

/-- Embedding of `const NTP_TD_UNIX_SECONDS: i64 = 2_208_988_800;` — seconds between the
NTP epoch (1900-01-01) and the Unix epoch (1970-01-01). -/
def NTP_TD_UNIX_SECONDS : Int := 2208988800

/-- Embedding of `struct NTPTimeStamp { seconds: u32, fraction: u32 }`.  The fields are
`u32` in Rust; the embedding uses `Nat` and carries the `< 2^32` range as a
hypothesis where a statement depends on it. -/
structure NTPTimeStamp where
  seconds : Nat
  fraction : Nat
deriving DecidableEq, Repr

/-- A UTC instant as chrono exposes it to this program: `timestamp()`
(whole seconds since the Unix epoch, `i64`) and `nanosecond()` (sub-second
nanoseconds). -/
structure DateTimeUtc where
  secs : Int
  nanos : Nat
deriving DecidableEq, Repr

/-- Total nanoseconds since the Unix epoch of a `DateTimeUtc`. -/
def dtToNanos (t : DateTimeUtc) : Int := t.secs * 1000000000 + t.nanos

/-- Subtraction of two chrono `DateTime<Utc>` values: the signed
`Duration` between them, as total nanoseconds. -/
def dtSub (a b : DateTimeUtc) : Int := dtToNanos a - dtToNanos b

/-- Embedding of `chrono::Duration::num_milliseconds`: the number of whole milliseconds in
a duration given as total nanoseconds, truncated toward zero (chrono computes
`num_seconds() * 1000 + nanos_mod_sec() / 1_000_000`, which on the
total-nanosecond value is exactly truncation toward zero). -/
def durNumMilliseconds (d : Int) : Int := Int.tdiv d 1000000

/-- Embedding of `struct NTPResult { t1, t2, t3, t4: DateTime<Utc> }`. -/
structure NTPResult where
  t1 : DateTimeUtc
  t2 : DateTimeUtc
  t3 : DateTimeUtc
  t4 : DateTimeUtc
deriving DecidableEq, Repr

/-- Embedding of `NTPResult::delay`: `((self.t4 - self.t1) - (self.t3 - self.t2)).num_milliseconds()`. -/
def NTPResult.delay (r : NTPResult) : Int :=
  durNumMilliseconds (dtSub r.t4 r.t1 - dtSub r.t3 r.t2)

/-- Embedding of `NTPResult::offset`: `let delta = self.delay(); delta.abs() / 2`
(`i64` truncating division applied to the absolute value). -/
def NTPResult.offset (r : NTPResult) : Int :=
  Int.tdiv |r.delay| 2

/-- Embedding of `impl From<NTPTimeStamp> for DateTime<Utc>` (`to_absolute_time`):
`secs = ntp.seconds as i64 - NTP_TD_UNIX_SECONDS;
 nanos = (ntp.fraction as f64 * 1e9 / 2^32) as u32;
 Utc.timestamp_opt(secs, nanos).unwrap()`.
The `f64` computation is exact for `fraction < 2^32` (see header), so the
truncating `as u32` cast is the integer floor below.  The `unwrap` cannot
panic: `secs` lies in `[-2208988800, 2^32)` shifted by the epoch delta, well
inside the range of chrono, and `nanos < 1e9`. -/
def utcOfNtp (ntp : NTPTimeStamp) : DateTimeUtc :=
  { secs := (ntp.seconds : Int) - NTP_TD_UNIX_SECONDS
    nanos := ntp.fraction * 1000000000 / 2 ^ 32 }

/-- Embedding of `impl From<DateTime<Utc>> for NTPTimeStamp` (`from_absolute_time`):
`seconds = (utc.timestamp() + NTP_TD_UNIX_SECONDS) as u32;
 fraction = (utc.nanosecond() as f64 * 2^32 / 1e9) as u32`.
The int-to-int `as u32` cast silently wraps modulo `2^32` (explicit `%` here);
the float-to-int cast truncates and saturates at `u32::MAX` (explicit `min`;
for `nanos < 1e9` the value is below `2^32` and the `min` is inert).  The
`f64` computation is exact at these magnitudes (see header). -/
def ntpOfUtc (utc : DateTimeUtc) : NTPTimeStamp :=
  { seconds := ((utc.secs + NTP_TD_UNIX_SECONDS) % 2 ^ 32).toNat
    fraction := min (utc.nanos * 2 ^ 32 / 1000000000) (2 ^ 32 - 1) }

/-- Embedding of `struct NTPMessage { data: [u8; 48] }`.  Bytes are `u8` in Rust; the
embedding stores them as `Nat` (all values the program ever writes are below
256). -/
structure NTPMessage where
  data : Fin 48 → Nat

/-- Embedding of `NTPMessage::new`: the all-zero 48-byte message. -/
def NTPMessage.new : NTPMessage := ⟨fun _ => 0⟩

/-- Embedding of `NTPMessage::client`:
`const VERSION: u8 = 0b00_011_000; const MODE: u8 = 0b00_000_011;
 let mut msg = NTPMessage::new(); msg.data[0] |= VERSION; msg.data[0] |= MODE;` -/
def NTPMessage.client : NTPMessage :=
  let msg := NTPMessage.new
  let msg : NTPMessage := ⟨fun i => if i = 0 then Nat.lor (msg.data 0) 0b00011000 else msg.data i⟩
  ⟨fun i => if i = 0 then Nat.lor (msg.data 0) 0b00000011 else msg.data i⟩

/-- The `std::io::Error` values the NTP core can produce: the byteorder
`read_u32` fails with an unexpected-EOF error when fewer than 4 bytes
remain in the slice. -/
inductive IoError where
  | unexpectedEof
deriving DecidableEq, Repr

/-- Embedding of the byteorder `ReadBytesExt::read_u32::<BigEndian>` call on a `&[u8]` reader:
consume 4 bytes and return the big-endian `u32` together with the rest of the
slice, or fail with an EOF error if fewer than 4 bytes remain.  For bytes
below 256 the Horner form equals the `(b0<<24)|(b1<<16)|(b2<<8)|b3`
assembly. -/
def readU32BE : List Nat → Except IoError (Nat × List Nat)
  | b0 :: b1 :: b2 :: b3 :: rest => .ok (((b0 * 256 + b1) * 256 + b2) * 256 + b3, rest)
  | _ => .error .unexpectedEof

/-- The slice `&self.data[i..i + 8]` of an `NTPMessage`; the bound `h` is the
in-range condition under which Rust slicing does not panic (both call sites
pass constants 32 and 40). -/
def NTPMessage.slice8 (m : NTPMessage) (i : Nat) (h : i + 8 ≤ 48) : List Nat :=
  [m.data ⟨i, by omega⟩, m.data ⟨i + 1, by omega⟩, m.data ⟨i + 2, by omega⟩,
   m.data ⟨i + 3, by omega⟩, m.data ⟨i + 4, by omega⟩, m.data ⟨i + 5, by omega⟩,
   m.data ⟨i + 6, by omega⟩, m.data ⟨i + 7, by omega⟩]

/-- Embedding of `NTPMessage::parse_timestamp`:
`let mut reader = &self.data[i..i + 8];
 let seconds = reader.read_u32::<BigEndian>()?;
 let fraction = reader.read_u32::<BigEndian>()?;
 Ok(NTPTimeStamp { seconds, fraction })` -/
def NTPMessage.parse_timestamp (m : NTPMessage) (i : Nat) (h : i + 8 ≤ 48) :
    Except IoError NTPTimeStamp :=
  match readU32BE (m.slice8 i h) with
  | .error e => .error e
  | .ok (seconds, rest) =>
    match readU32BE rest with
    | .error e => .error e
    | .ok (fraction, _) => .ok ⟨seconds, fraction⟩

/-- Embedding of `NTPMessage::rx_time`: `self.parse_timestamp(32)`. -/
def NTPMessage.rx_time (m : NTPMessage) : Except IoError NTPTimeStamp :=
  m.parse_timestamp 32 (by omega)

/-- Embedding of `NTPMessage::tx_time`: `self.parse_timestamp(40)`. -/
def NTPMessage.tx_time (m : NTPMessage) : Except IoError NTPTimeStamp :=
  m.parse_timestamp 40 (by omega)

/-- The big-endian 32-bit value assembled from `data[i..i+4]`; used to state
what the timestamp accessors decode. -/
def NTPMessage.be32 (m : NTPMessage) (i : Nat) (h : i + 4 ≤ 48) : Nat :=
  ((m.data ⟨i, by omega⟩ * 256 + m.data ⟨i + 1, by omega⟩) * 256 +
      m.data ⟨i + 2, by omega⟩) * 256 + m.data ⟨i + 3, by omega⟩

/-- The 48-byte receive buffer after `udp.recv_from(&mut response.data)` whose
result the source discards with `let _ =`: the buffer starts as
`NTPMessage::new()` (all zeros); if a datagram of `k` bytes arrived, its first
`min k 48` bytes overwrite the front of the buffer; if none arrived (timeout,
modelled by `none`), the buffer is untouched. -/
def responseAfterRecv (reply : Option (List Nat)) : NTPMessage :=
  ⟨fun i =>
    match reply with
    | none => 0
    | some bs => if h : (i : Nat) < bs.length then bs.get ⟨i, h⟩ else 0⟩

/-- Models the `.unwrap()` applied to `rx_time()`/`tx_time()` in
`ntp_roundtrip`.  The panic branch is unreachable: parsing a fixed 48-byte
buffer at offsets 32 and 40 always succeeds (see the C10 theorem). -/
def unwrapTs : Except IoError NTPTimeStamp → NTPTimeStamp
  | .ok ts => ts
  | .error _ => ⟨0, 0⟩

/-- Embedding of `NTPMessage::ntp_roundtrip`, after the socket has been bound and
connected (the source panics via `unimplemented!`/`expect` if either fails,
so the error-returning behaviour of the function is entirely the code below).
The send result, the read-timeout result and crucially the `recv_from` result
are all discarded with `let _ =`; `t1`/`t4` are the local clock readings
around the exchange and `reply` is the datagram the socket delivered
(`none` when `recv_from` failed, e.g. timed out).  The function then decodes
`t2`/`t3` from whatever is in the buffer and always returns `Ok`. -/
def ntp_roundtrip (reply : Option (List Nat)) (t1 t4 : DateTimeUtc) :
    Except IoError NTPResult :=
  let response := responseAfterRecv reply
  let t2 := utcOfNtp (unwrapTs response.rx_time)
  let t3 := utcOfNtp (unwrapTs response.tx_time)
  .ok ⟨t1, t2, t3, t4⟩

/-- Symbolic `f64`: exact rationals for finite values plus the three
non-finite points. -/
inductive F64 where
  | finite (q : ℚ)
  | posInf
  | negInf
  | nan
deriving DecidableEq, Repr

/-- IEEE `is_finite`. -/
def F64.isFinite : F64 → Bool
  | .finite _ => true
  | _ => false

/-- IEEE addition on the symbolic points (finite overflow idealised away;
unreachable at the magnitudes of this program). -/
def F64.add : F64 → F64 → F64
  | .nan, _ => .nan
  | _, .nan => .nan
  | .posInf, .negInf => .nan
  | .posInf, _ => .posInf
  | .negInf, .posInf => .nan
  | .negInf, _ => .negInf
  | .finite _, .posInf => .posInf
  | .finite _, .negInf => .negInf
  | .finite a, .finite b => .finite (a + b)

/-- IEEE multiplication on the symbolic points. -/
def F64.mul : F64 → F64 → F64
  | .nan, _ => .nan
  | _, .nan => .nan
  | .posInf, .posInf => .posInf
  | .posInf, .negInf => .negInf
  | .negInf, .posInf => .negInf
  | .negInf, .negInf => .posInf
  | .posInf, .finite b => if b = 0 then .nan else if 0 < b then .posInf else .negInf
  | .negInf, .finite b => if b = 0 then .nan else if 0 < b then .negInf else .posInf
  | .finite a, .posInf => if a = 0 then .nan else if 0 < a then .posInf else .negInf
  | .finite a, .negInf => if a = 0 then .nan else if 0 < a then .negInf else .posInf
  | .finite a, .finite b => .finite (a * b)

/-- IEEE division on the symbolic points.  `x / 0` with `x ≠ 0` gives a
signed infinity and `0 / 0` gives NaN (the sign of an IEEE zero is ignored:
every zero divisor this program can produce is `+0`, namely `delay * delay`
with `delay = 0` and an empty weight sum). -/
def F64.div : F64 → F64 → F64
  | .nan, _ => .nan
  | _, .nan => .nan
  | .posInf, .posInf => .nan
  | .posInf, .negInf => .nan
  | .negInf, .posInf => .nan
  | .negInf, .negInf => .nan
  | .posInf, .finite b => if 0 ≤ b then .posInf else .negInf
  | .negInf, .finite b => if 0 ≤ b then .negInf else .posInf
  | .finite _, .posInf => .finite 0
  | .finite _, .negInf => .finite 0
  | .finite a, .finite b =>
    if b = 0 then (if a = 0 then .nan else if 0 < a then .posInf else .negInf)
    else .finite (a / b)

/-- Rust `x as f64` for an integer `x` (exact for the `i64` millisecond
counts this program converts, up to the idealisation in the header; the
value is zero iff the integer is zero either way). -/
def ofInt (n : Int) : F64 := .finite (n : ℚ)

/-- Rust saturating float-to-int cast `as isize` on a 64-bit target:
NaN goes to 0, infinities to the extreme values, finite values truncate
toward zero and clamp into `[isize::MIN, isize::MAX]`. -/
def f64ToIsize : F64 → Int
  | .nan => 0
  | .posInf => 2 ^ 63 - 1
  | .negInf => -(2 ^ 63)
  | .finite q => max (-(2 ^ 63)) (min (2 ^ 63 - 1) (Int.tdiv q.num q.den))

/-- Embedding of `NTPMessage::weighted_mean`:
`let mut result = 0.0; let mut sum_of_weights = 0.0;
 for (v, w) in values.iter().zip(weights) { result += v*w; sum_of_weights += w; }
 result / sum_of_weights` -/
def weighted_mean (values weights : List F64) : F64 :=
  let p := (values.zip weights).foldl
    (fun acc vw => (F64.add acc.1 (F64.mul vw.1 vw.2), F64.add acc.2 vw.2))
    (F64.finite 0, F64.finite 0)
  F64.div p.1 p.2

/-- The weight `check_time` computes for one sample:
`let delay = time.delay() as f64; 1_000_000.0 / (delay * delay)`. -/
def sampleWeight (t : NTPResult) : F64 :=
  F64.div (F64.finite 1000000) (F64.mul (ofInt t.delay) (ofInt t.delay))

/-- The offset/weight accumulation loop of `NTPMessage::check_time`:
`for time in &times { let offset = time.offset() as f64; ...;
 let weight = 1_000_000.0 / (delay * delay);
 if weight.is_finite() { offsets.push(offset); offset_weights.push(weight); } }`
returning `(offsets, offset_weights)` in iteration order. -/
def collectOffsets : List NTPResult → List F64 × List F64
  | [] => ([], [])
  | t :: rest =>
    let weight := sampleWeight t
    let p := collectOffsets rest
    if weight.isFinite then (ofInt t.offset :: p.1, weight :: p.2) else p

/-- Embedding of `NTPMessage::check_time`, as a function of the successful samples
(the network loop that produces `times` is effectful; every `Err` from
`ntp_roundtrip` only skips a sample).  Returns
`Self::weighted_mean(&offsets, &offset_weights)`; the `Ok` wrapper of the
source is dropped because no path of `check_time` constructs an `Err`. -/
def check_time (times : List NTPResult) : F64 :=
  let p := collectOffsets times
  weighted_mean p.1 p.2

/-- Embedding of `fn match_check_ntp()`, as a function of the aggregate offset returned by
`check_time` (the `.unwrap()` of the source never panics because `check_time`
always returns `Ok`) and of the current instant `now` in nanoseconds:
`let offset = ... as isize;
 let adjust_ms_ = offset.signum() * offset.abs().min(200) / 5;
 let adjust_ms = ChronoDuration::milliseconds(adjust_ms_ as i64);
 let now: DateTime<Utc> = Utc::now() + adjust_ms;
 Clock::set(now);`
The returned value is the instant handed to `Clock::set` (nanoseconds since
the Unix epoch); there is no error path. -/
def match_check_ntp (avg : F64) (now : Int) : Int :=
  let offset := f64ToIsize avg
  let adjust := Int.tdiv (Int.sign offset * min |offset| 200) 5
  now + adjust * 1000000

/-! ## Claim theorems -/

/-- C1: for every `RoundtripSample` (`NTPResult`), the per-sample delay is
`((t4 - t1) - (t3 - t2))` expressed in whole milliseconds, and the per-sample
offset is `|delay_ms| / 2` (integer division of the absolute delay by 2),
hence the offset is always non-negative. -/
theorem c1_offset_half_abs_delay (r : NTPResult) :
    r.delay = Int.tdiv ((dtToNanos r.t4 - dtToNanos r.t1) -
        (dtToNanos r.t3 - dtToNanos r.t2)) 1000000 ∧
    r.offset = ((r.delay.natAbs / 2 : Nat) : Int) ∧
    0 ≤ r.offset := by
  have h : r.offset = ((r.delay.natAbs / 2 : Nat) : Int) := by
    show Int.tdiv |r.delay| 2 = _
    rw [Int.abs_eq_natAbs]
    rfl
  exact ⟨rfl, h, by rw [h]; exact Int.natCast_nonneg _⟩

/-- C1 witness: the theorem applied to a concrete sample with
`t4 - t1 = 20 ms`, `t3 - t2 = 13 ms`, so the delay is 7 ms and the offset
3 ms. -/
theorem c1_offset_half_abs_delay_witness :
    (⟨⟨0, 0⟩, ⟨0, 0⟩, ⟨0, 13000000⟩, ⟨0, 20000000⟩⟩ : NTPResult).offset = 3 ∧
    0 ≤ (⟨⟨0, 0⟩, ⟨0, 0⟩, ⟨0, 13000000⟩, ⟨0, 20000000⟩⟩ : NTPResult).offset := by
  have h := c1_offset_half_abs_delay ⟨⟨0, 0⟩, ⟨0, 0⟩, ⟨0, 13000000⟩, ⟨0, 20000000⟩⟩
  refine ⟨?_, h.2.2⟩
  rw [h.2.1]
  decide

/-- C9: the client-mode request message is exactly 48 bytes (the index type
of `NTPMessage.data`), byte 0 is the bit pattern `0b00_011_011`
(version 3 in bits 3–5 ored with mode 3 in bits 0–2), and every other byte is
zero. -/
theorem c9_client_message :
    ∀ i : Fin 48, NTPMessage.client.data i = if i = 0 then 0b00011011 else 0 := by
  decide

/-- C10: for every 48-byte `NTPMessage`, `rx_time` and `tx_time` never return
an error: the slices at offsets 32 and 40 always hold exactly 8 bytes, the
`io::Error` branch of the reader is not taken, and the decoded values are the
big-endian `(seconds, fraction)` pairs read from bytes `[32..40)` and
`[40..48)` respectively. -/
theorem c10_parse_never_fails (m : NTPMessage) :
    m.rx_time = .ok ⟨m.be32 32 (by omega), m.be32 36 (by omega)⟩ ∧
    m.tx_time = .ok ⟨m.be32 40 (by omega), m.be32 44 (by omega)⟩ :=
  ⟨rfl, rfl⟩

/-- C3 (code bug): the exchange never fails.  `ntp_roundtrip` discards the
result of `recv_from` with `let _ =` and unconditionally returns `Ok`; on a
timeout (no reply, `reply = none`) the all-zero receive buffer is decoded, so
the call succeeds with the garbage timestamps
`t2 = t3 = 1900-01-01T00:00:00Z` (`-2208988800` Unix seconds) instead of
returning a `TimeoutError`, and a short reply is likewise decoded from the
partially overwritten zero buffer instead of producing a `ProtocolError`. -/
theorem c3_roundtrip_never_errors :
    (∀ (reply : Option (List Nat)) (t1 t4 : DateTimeUtc),
      (ntp_roundtrip reply t1 t4).isOk = true) ∧
    (∀ t1 t4 : DateTimeUtc,
      ntp_roundtrip none t1 t4 =
        .ok ⟨t1, ⟨-2208988800, 0⟩, ⟨-2208988800, 0⟩, t4⟩) :=
  ⟨fun _ _ _ => rfl, fun _ _ => rfl⟩

/-- C2 counterexample: the UTC instant with `timestamp() = 0` and
`nanosecond() = 1` has its whole second inside the representable NTP range,
yet the round trip through `NTPTimeStamp` returns a sub-second part of
0 ns: the error is 1 ns = `10^9 / 2^32` ≈ 4.3 fractional-resolution units,
which exceeds the claimed bound of one `2^-32`-second unit
(`(1 - 0) * 2^32 ≤ 10^9` is false). -/
theorem c2_roundtrip_counterexample :
    ((0 : Int) ≤ (0 : Int) + NTP_TD_UNIX_SECONDS) ∧
    ((0 : Int) + NTP_TD_UNIX_SECONDS < 2 ^ 32) ∧
    (utcOfNtp (ntpOfUtc ⟨0, 1⟩)).secs = 0 ∧
    (utcOfNtp (ntpOfUtc ⟨0, 1⟩)).nanos = 0 ∧
    ¬ (((1 : Nat) - (utcOfNtp (ntpOfUtc ⟨0, 1⟩)).nanos) * 2 ^ 32 ≤ 10 ^ 9) := by
  refine ⟨by decide, by decide, by decide, by decide, by decide⟩

/-- C2 amended: for every UTC instant whose whole second lies in the
representable NTP range (and whose nanosecond field is an ordinary
sub-second value below `10^9`), the round trip through `from_absolute_time`
and `to_absolute_time` reproduces the whole second exactly, and the
sub-second nanosecond count is reproduced to within one nanosecond,
always rounding downward (the claimed bound of one `2^-32`-second unit is
too strong, see the counterexample). -/
theorem c2_roundtrip_amended (t : DateTimeUtc)
    (hn : t.nanos < 1000000000)
    (h0 : 0 ≤ t.secs + NTP_TD_UNIX_SECONDS)
    (h1 : t.secs + NTP_TD_UNIX_SECONDS < 2 ^ 32) :
    (utcOfNtp (ntpOfUtc t)).secs = t.secs ∧
    (utcOfNtp (ntpOfUtc t)).nanos ≤ t.nanos ∧
    t.nanos ≤ (utcOfNtp (ntpOfUtc t)).nanos + 1 := by
  have hfr : t.nanos * 2 ^ 32 / 1000000000 < 2 ^ 32 := by
    rw [Nat.div_lt_iff_lt_mul (by norm_num)]
    omega
  have hmin : (ntpOfUtc t).fraction = t.nanos * 2 ^ 32 / 1000000000 := by
    simp only [ntpOfUtc]
    exact Nat.min_eq_left (by omega)
  have hnan : (utcOfNtp (ntpOfUtc t)).nanos =
      t.nanos * 2 ^ 32 / 1000000000 * 1000000000 / 2 ^ 32 := by
    simp only [utcOfNtp, hmin]
  have d1 := Nat.div_add_mod (t.nanos * 2 ^ 32) 1000000000
  have d2 := Nat.div_add_mod (t.nanos * 2 ^ 32 / 1000000000 * 1000000000) (2 ^ 32)
  have m1 : (t.nanos * 2 ^ 32) % 1000000000 < 1000000000 :=
    Nat.mod_lt _ (by norm_num)
  have m2 : (t.nanos * 2 ^ 32 / 1000000000 * 1000000000) % 2 ^ 32 < 2 ^ 32 :=
    Nat.mod_lt _ (by norm_num)
  refine ⟨?_, ?_, ?_⟩
  · have hsec : (utcOfNtp (ntpOfUtc t)).secs =
        (((t.secs + NTP_TD_UNIX_SECONDS) % 2 ^ 32).toNat : Int) -
          NTP_TD_UNIX_SECONDS := by
      simp only [utcOfNtp, ntpOfUtc]
    rw [hsec, Int.emod_eq_of_lt h0 h1, Int.toNat_of_nonneg h0]
    omega
  · rw [hnan]; omega
  · rw [hnan]; omega

/-- C2 amended witness: the amended round-trip law at the concrete instant
`timestamp() = 100`, `nanosecond() = 999999999`. -/
theorem c2_roundtrip_amended_witness :
    ((⟨100, 999999999⟩ : DateTimeUtc).nanos < 1000000000 ∧
     0 ≤ (⟨100, 999999999⟩ : DateTimeUtc).secs + NTP_TD_UNIX_SECONDS ∧
     (⟨100, 999999999⟩ : DateTimeUtc).secs + NTP_TD_UNIX_SECONDS < 2 ^ 32) ∧
    ((utcOfNtp (ntpOfUtc ⟨100, 999999999⟩)).secs = 100 ∧
     (utcOfNtp (ntpOfUtc ⟨100, 999999999⟩)).nanos ≤ 999999999 ∧
     999999999 ≤ (utcOfNtp (ntpOfUtc ⟨100, 999999999⟩)).nanos + 1) :=
  ⟨⟨by decide, by decide, by decide⟩,
   c2_roundtrip_amended ⟨100, 999999999⟩ (by decide) (by decide) (by decide)⟩

/-- C5 (code bug): `from_absolute_time` does not fail on an instant outside
the 32-bit NTP second range — it silently wraps.  At the concrete UTC instant
with `timestamp() = 2085978501` (`secs + 2208988800 = 2^32 + 5`, past the
2036 rollover), the `as u32` cast reduces the seconds modulo `2^32` and the
conversion succeeds with `seconds = 5`.  (The reverse direction,
`to_absolute_time`, is total as well: its derived `secs`/`nanos` always form
a representable chrono instant, so its claimed failure branch is
unreachable.) -/
theorem c5_from_absolute_wraps :
    (2 ^ 32 : Int) ≤ (2085978501 : Int) + NTP_TD_UNIX_SECONDS ∧
    (ntpOfUtc ⟨2085978501, 0⟩).seconds = 5 := by
  refine ⟨by decide, by decide⟩

/-- C4 (code bug): with no usable samples the aggregate `check_time` result
is NaN, and `match_check_ntp` does not surface an error: the `as isize`
saturating cast turns NaN into 0, the adjustment becomes 0 ms, and the clock
is still set, to `now + 0` — i.e. the NaN aggregate is treated exactly as a
valid zero offset. -/
theorem c4_nan_aggregate_sets_clock :
    check_time [] = F64.nan ∧
    ∀ now : Int, match_check_ntp (check_time []) now = now := by
  have h : check_time [] = F64.nan := by
    show weighted_mean [] [] = F64.nan
    simp [weighted_mean, F64.div]
  refine ⟨h, fun now => ?_⟩
  rw [h]
  show now + Int.tdiv (Int.sign (f64ToIsize F64.nan) *
      min |f64ToIsize F64.nan| 200) 5 * 1000000 = now
  norm_num [f64ToIsize]

/-- Helper for C6: the accumulation loop of `check_time` keeps exactly the
samples whose weight is finite, in order, pushing the offset into the first
list and the weight into the second. -/
theorem collectOffsets_eq (times : List NTPResult) :
    collectOffsets times =
      ((times.filter fun t => (sampleWeight t).isFinite).map (fun t => ofInt t.offset),
       (times.filter fun t => (sampleWeight t).isFinite).map sampleWeight) := by
  induction times with
  | nil => rfl
  | cons t rest ih =>
    by_cases h : (sampleWeight t).isFinite
    · simp [collectOffsets, ih, List.filter_cons, h]
    · simp [collectOffsets, ih, List.filter_cons, h]

/-- Helper for C6: the weight `1_000_000.0 / (delay * delay)` is non-finite
exactly when the delay of the sample is zero (then it is `+inf`; the numerator is
a non-zero constant and the square of a finite cast is finite, so NaN/Inf
arises from no other sample). -/
theorem sampleWeight_finite_iff (t : NTPResult) :
    (sampleWeight t).isFinite = false ↔ t.delay = 0 := by
  by_cases hd : t.delay = 0
  · simp [sampleWeight, ofInt, F64.mul, F64.div, hd, F64.isFinite]
  · have hq : ((t.delay : ℚ)) * t.delay ≠ 0 :=
      mul_ne_zero (Int.cast_ne_zero.mpr hd) (Int.cast_ne_zero.mpr hd)
    simp [sampleWeight, ofInt, F64.mul, F64.div, hq, F64.isFinite, hd]

/-- C6: for every list of successful samples, the aggregation step of
`check_time` computes each weight as `1_000_000 / delay_ms^2`, and every
`(offset, weight)` pair whose weight is not finite — exactly the samples with
`delay_ms = 0`, which give `+inf` — is excluded from both accumulated lists,
so it contributes to neither the numerator nor the denominator of the
weighted mean. -/
theorem c6_nonfinite_weights_excluded (times : List NTPResult) :
    (collectOffsets times).1
        = (times.filter fun t => (sampleWeight t).isFinite).map (fun t => ofInt t.offset) ∧
    (collectOffsets times).2
        = (times.filter fun t => (sampleWeight t).isFinite).map sampleWeight ∧
    ∀ t : NTPResult,
      (sampleWeight t = F64.div (F64.finite 1000000)
          (F64.mul (ofInt t.delay) (ofInt t.delay))) ∧
      ((sampleWeight t).isFinite = false ↔ t.delay = 0) := by
  refine ⟨?_, ?_, fun t => ⟨rfl, sampleWeight_finite_iff t⟩⟩
  · rw [collectOffsets_eq]
  · rw [collectOffsets_eq]

/-- Helper for C7: the accumulation loop of `weighted_mean` on finite inputs
computes the two running rational sums. -/
theorem weighted_mean_fold (pairs : List (ℚ × ℚ)) (A W : ℚ) :
    ((pairs.map fun p => (F64.finite p.1, F64.finite p.2)).foldl
        (fun acc vw => (F64.add acc.1 (F64.mul vw.1 vw.2), F64.add acc.2 vw.2))
        (F64.finite A, F64.finite W))
      = (F64.finite (A + (pairs.map fun p => p.1 * p.2).sum),
         F64.finite (W + (pairs.map fun p => p.2).sum)) := by
  induction pairs generalizing A W with
  | nil => simp
  | cons p ps ih =>
    rw [List.map_cons, List.foldl_cons]
    show (List.map (fun p => (F64.finite p.1, F64.finite p.2)) ps).foldl _
        (F64.finite (A + p.1 * p.2), F64.finite (W + p.2)) = _
    rw [ih, List.map_cons, List.sum_cons, List.map_cons, List.sum_cons]
    simp only [add_assoc]

/-- C7: for every non-empty list of retained `(offset, weight)` pairs (finite
values, positive finite weights — exactly what the `is_finite` filter of
`check_time` retains), `weighted_mean` returns
`sum(offset_i * weight_i) / sum(weight_i)`; on the empty list the running
sums are both `0.0` and the final `0.0 / 0.0` is NaN, which is non-finite
and therefore distinguishable from every real offset. -/
theorem c7_weighted_mean_formula :
    (weighted_mean [] [] = F64.nan ∧ (weighted_mean [] []).isFinite = false) ∧
    ∀ pairs : List (ℚ × ℚ), pairs ≠ [] → (∀ p ∈ pairs, 0 < p.2) →
      weighted_mean (pairs.map fun p => F64.finite p.1)
          (pairs.map fun p => F64.finite p.2)
        = F64.finite ((pairs.map fun p => p.1 * p.2).sum /
            (pairs.map fun p => p.2).sum) := by
  constructor
  · constructor
    · show F64.div (F64.finite 0) (F64.finite 0) = F64.nan
      simp [F64.div]
    · rfl
  · intro pairs hne hpos
    have hzip : (pairs.map fun p => F64.finite p.1).zip
          (pairs.map fun p => F64.finite p.2)
        = pairs.map fun p => (F64.finite p.1, F64.finite p.2) :=
      List.zip_map' _ _ _
    have hsum : 0 < (pairs.map fun p => p.2).sum := by
      refine List.sum_pos _ ?_ ?_
      · intro x hx
        obtain ⟨p, hp, rfl⟩ := List.mem_map.mp hx
        exact hpos p hp
      · simpa using hne
    show F64.div _ _ = _
    rw [hzip, weighted_mean_fold pairs 0 0, zero_add, zero_add]
    simp [F64.div, hsum.ne']

/-- C7 witness: the weighted-mean formula applied to the single retained pair
`(offset, weight) = (5, 2)`, giving `(5 * 2) / 2 = 5`. -/
theorem c7_weighted_mean_formula_witness :
    (([((5 : ℚ), (2 : ℚ))] : List (ℚ × ℚ)) ≠ [] ∧
     ∀ p ∈ ([((5 : ℚ), (2 : ℚ))] : List (ℚ × ℚ)), 0 < p.2) ∧
    weighted_mean [F64.finite 5] [F64.finite 2] = F64.finite 5 := by
  refine ⟨⟨by simp, by norm_num⟩, ?_⟩
  have h := c7_weighted_mean_formula.2 [((5 : ℚ), (2 : ℚ))] (by simp) (by norm_num)
  norm_num at h
  exact h

/-- C8: for every finite aggregate offset (as long as the truncated value is
not `isize::MIN`, where the Rust `isize::abs` call would panic),
`match_check_ntp` computes the applied correction as
`signum(offset) * min(|offset|, 200) / 5` milliseconds on the truncated
integer offset, adds it to the current UTC instant before handing the result
to `Clock::set`, and the correction magnitude never exceeds 40 ms. -/
theorem c8_bounded_adjustment (q : ℚ) (now : Int)
    (hmin : f64ToIsize (F64.finite q) ≠ -(2 ^ 63)) :
    match_check_ntp (F64.finite q) now
      = now + Int.tdiv (Int.sign (f64ToIsize (F64.finite q)) *
          min |f64ToIsize (F64.finite q)| 200) 5 * 1000000 ∧
    (Int.tdiv (Int.sign (f64ToIsize (F64.finite q)) *
        min |f64ToIsize (F64.finite q)| 200) 5).natAbs ≤ 40 := by
  refine ⟨rfl, ?_⟩
  have hmin0 : 0 ≤ min |f64ToIsize (F64.finite q)| 200 :=
    le_min (abs_nonneg _) (by norm_num)
  have hmax : min |f64ToIsize (F64.finite q)| 200 ≤ 200 := min_le_right _ _
  have habs : (Int.sign (f64ToIsize (F64.finite q)) *
      min |f64ToIsize (F64.finite q)| 200).natAbs ≤ 200 := by
    rw [Int.natAbs_mul]
    have h1 : (Int.sign (f64ToIsize (F64.finite q))).natAbs ≤ 1 := by
      rcases lt_trichotomy (f64ToIsize (F64.finite q)) 0 with h | h | h
      · rw [Int.sign_eq_neg_one_of_neg h]; decide
      · rw [h]; decide
      · rw [Int.sign_eq_one_of_pos h]; decide
    have h2 : (min |f64ToIsize (F64.finite q)| 200).natAbs ≤ 200 := by omega
    calc (Int.sign (f64ToIsize (F64.finite q))).natAbs *
          (min |f64ToIsize (F64.finite q)| 200).natAbs
        ≤ 1 * 200 := Nat.mul_le_mul h1 h2
      _ = 200 := by norm_num
  rw [Int.natAbs_tdiv]
  calc (Int.sign (f64ToIsize (F64.finite q)) *
        min |f64ToIsize (F64.finite q)| 200).natAbs / (5 : Int).natAbs
      ≤ 200 / (5 : Int).natAbs := Nat.div_le_div_right habs
    _ = 40 := by norm_num

/-- C8 witness: the bounded-adjustment law at the concrete finite aggregate
`offset = 150 ms` and `now = 0`: the adjustment is `150 / 5 = 30 ms` and the
clock-set instant is `30000000` ns. -/
theorem c8_bounded_adjustment_witness :
    (f64ToIsize (F64.finite 150) ≠ -(2 ^ 63)) ∧
    match_check_ntp (F64.finite 150) 0 = 30000000 ∧
    (Int.tdiv (Int.sign (f64ToIsize (F64.finite 150)) *
        min |f64ToIsize (F64.finite 150)| 200) 5).natAbs ≤ 40 := by
  have hval : f64ToIsize (F64.finite 150) = 150 := by
    show max (-(2 ^ 63)) (min (2 ^ 63 - 1) (Int.tdiv (150 : ℚ).num (150 : ℚ).den)) = 150
    rw [Rat.num_ofNat, Rat.den_ofNat]
    decide
  have h := c8_bounded_adjustment 150 0 (by rw [hval]; decide)
  refine ⟨by rw [hval]; decide, ?_, h.2⟩
  rw [h.1, hval]
  decide
